import Mathlib

/-!
Verification development for the `vite-plugin-turbo-reload` plugin
(source: `src/index.ts`).

The plugin is orchestration glue: it normalizes path patterns, registers
them with the host watcher, and on each add/change event decides whether
to schedule a client message (a full reload or a custom `turbo-refresh`
event) and whether to log. The `transform` hook optionally appends a
fixed client-side snippet to one known module.

External collaborators (node `path`, vite `normalizePath`, `picomatch`,
`picocolors`) are modelled by small executable functions, each marked in
its doc comment. The plugin's own code (`normalizePaths`, `transform`,
`configureServer` and its `checkReload` closure) is embedded faithfully,
with the observable actions of an event reified as a list of `Effect`s.
-/

namespace VitePluginTurboReload

/-- Split a character list on the separator `/`. Helper for the posix path
models; kept structural so that closed instances evaluate in the kernel. -/
def splitSegs : List Char → List Char → List String
  | acc, [] => [String.mk acc.reverse]
  | acc, '/' :: cs => String.mk acc.reverse :: splitSegs [] cs
  | acc, c :: cs => splitSegs (c :: acc) cs

/-- Join path segments with `/`. -/
def joinSlash : List String → String
  | [] => ""
  | [s] => s
  | s :: rest => s ++ "/" ++ joinSlash rest

/-- Collapse the segments of an absolute posix path: drop empty and `.`
segments, let `..` pop the previous segment (at the root it is dropped, as
posix normalization does for absolute paths). The accumulator holds the
collapsed segments in reverse. -/
def collapseAbs : List String → List String → List String
  | acc, [] => acc.reverse
  | acc, s :: rest =>
    if s = "" || s = "." then collapseAbs acc rest
    else if s = ".." then collapseAbs (acc.drop 1) rest
    else collapseAbs (s :: acc) rest

/-- A path is absolute iff it starts with `/` (posix convention, as node's
`path.isAbsolute` tests). -/
def isAbsolutePath (s : String) : Bool :=
  match s.data with
  | '/' :: _ => true
  | _ => false

/-- Modelled collaborator: node `path.resolve(root, p)` for the two-argument
call used at the call site, assuming posix separators and an absolute
`root` (the source defaults `root` to `process.cwd()`, which is absolute).
If `p` is absolute it wins; otherwise it is joined onto `root`; the result
is normalized into an absolute path. -/
def posixResolve (root p : String) : String :=
  let full := if isAbsolutePath p then p else root ++ "/" ++ p
  "/" ++ joinSlash (collapseAbs [] (splitSegs [] full.data))

/-- Modelled collaborator: vite's `normalizePath` on a posix host, which is
`path.posix.normalize`. Modelled for absolute inputs (the only inputs it
receives here, since it is applied after `resolve`); other inputs are
returned unchanged. -/
def normalizePath (s : String) : String :=
  if isAbsolutePath s then "/" ++ joinSlash (collapseAbs [] (splitSegs [] s.data))
  else s

/-- Drop the longest common prefix of two segment lists, returning the two
remainders. Helper for the `path.relative` model. -/
def dropCommonPrefix : List String → List String → List String × List String
  | a :: as, b :: bs =>
    if a = b then dropCommonPrefix as bs else (a :: as, b :: bs)
  | as, bs => (as, bs)

/-- Modelled collaborator: node `path.relative(f, t)` for absolute posix
paths: strip the common segment prefix, then step up with `..` for each
remaining segment of `f` and descend into the remaining segments of `t`. -/
def pathRelative (f t : String) : String :=
  let fs := collapseAbs [] (splitSegs [] f.data)
  let ts := collapseAbs [] (splitSegs [] t.data)
  let rest := dropCommonPrefix fs ts
  joinSlash (rest.1.map (fun _ => "..") ++ rest.2)

/-- Modelled collaborator: `picocolors.green`, which wraps its argument in
ANSI color escapes. -/
def picoGreen (s : String) : String := "\x1b[32m" ++ s ++ "\x1b[39m"

/-- Modelled collaborator: `picocolors.dim`. -/
def picoDim (s : String) : String := "\x1b[2m" ++ s ++ "\x1b[22m"

/-- Boolean prefix test on character lists. -/
def isPrefixList : List Char → List Char → Bool
  | [], _ => true
  | _ :: _, [] => false
  | a :: as, b :: bs => a = b && isPrefixList as bs

/-- Boolean infix (substring) test on character lists; models JavaScript's
`String.prototype.includes`. -/
def listIsInfixOf (needle : List Char) : List Char → Bool
  | [] => needle.isEmpty
  | c :: cs => isPrefixList needle (c :: cs) || listIsInfixOf needle cs

/-- Fuel-driven glob match, modelling the `picomatch` collaborator on the
kinds of pattern the tests of this development use: literal characters,
`?` (any one character except `/`), `*` (any run of characters except `/`)
and `**` (any run of characters). Structural in the fuel so that closed
instances evaluate in the kernel. -/
def globMatchFuel : Nat → List Char → List Char → Bool
  | 0, _, _ => false
  | _ + 1, [], [] => true
  | n + 1, '*' :: '*' :: ps, s =>
    globMatchFuel n ps s ||
      (match s with
       | _ :: cs => globMatchFuel n ('*' :: '*' :: ps) cs
       | [] => false)
  | n + 1, '*' :: ps, s =>
    globMatchFuel n ps s ||
      (match s with
       | c :: cs => if c = '/' then false else globMatchFuel n ('*' :: ps) cs
       | [] => false)
  | n + 1, '?' :: ps, c :: cs =>
    if c = '/' then false else globMatchFuel n ps cs
  | n + 1, p :: ps, c :: cs => p = c && globMatchFuel n ps cs
  | _ + 1, _, _ => false

/-- Match one glob pattern against one path. -/
def globMatch (pat s : String) : Bool :=
  globMatchFuel (pat.data.length + s.data.length + 1) pat.data s.data

/-- Modelled collaborator: the predicate `picomatch(files)` built from a
list of patterns — true iff the path matches at least one pattern
(boolean OR; the empty pattern list matches nothing). -/
def picomatchMatch (patterns : List String) (path : String) : Bool :=
  patterns.any (fun p => globMatch p path)

/-- `normalizePaths` from `src/index.ts`: wrap a single pattern into a
one-element list, resolve each pattern against `root`, then normalize
each. The `Sum` input mirrors the TypeScript union `string | string[]`
discriminated by `Array.isArray`. -/
def normalizePaths (root : String) (path : Sum String (List String)) : List String :=
  ((match path with
    | Sum.inl s => [s]
    | Sum.inr l => l).map (posixResolve root)).map normalizePath

/-- The two client message shapes sent over the messaging channel `ws`:
`ws.send({ type: 'full-reload', path })` and
`ws.send({ type: 'custom', event })`. -/
inductive WsMessage where
  | fullReload (path : String)
  | custom (event : String)
deriving DecidableEq

/-- One observable action of the per-event handler, in emission order.
`send delayMs msg` reifies `setTimeout(() => ws.send(msg), delayMs)`: the
message is scheduled on a timer of exactly `delayMs` milliseconds and is
therefore delivered no earlier than `delayMs` after the event (0 meaning
next tick). `logInfo message clear timestamp` reifies a synchronous
`logger.info(message, { clear, timestamp })` call, performed immediately at
detection time with no timer. -/
inductive Effect where
  | send (delayMs : Nat) (msg : WsMessage)
  | logInfo (message : String) (clear : Bool) (timestamp : Bool)
deriving DecidableEq

/-- The log line written on a triggered event:
`colors.green('full reload') + ' ' + colors.dim(relative(root, path))`. -/
def reloadLogMessage (root path : String) : String :=
  picoGreen "full reload" ++ " " ++ picoDim (pathRelative root path)

/-- The `checkReload` closure from `configureServer` in `src/index.ts`,
with its captured bindings (`shouldReload`, `turbo`, `always`, `log`,
`delay`, `root`) passed explicitly. Returns the observable actions of one
add/change event for the path, in order: if the path fails the predicate,
nothing happens; otherwise a client message is scheduled on a `delay`
timer (`turbo-refresh` custom event when `turbo`, else a full reload whose
path field is `*` when `always` and the triggering path otherwise), and
when `log` the status line is emitted synchronously. -/
def checkReload (shouldReload : String → Bool) (turbo always log : Bool)
    (delay : Nat) (root : String) (path : String) : List Effect :=
  if shouldReload path then
    (if turbo then
      [Effect.send delay (WsMessage.custom "turbo-refresh")]
    else
      [Effect.send delay (WsMessage.fullReload (if always then "*" else path))])
    ++ (if log then [Effect.logInfo (reloadLogMessage root path) true true] else [])
  else []

/-- The messages that the effect list schedules for sending, in order. -/
def sentMessages (effects : List Effect) : List WsMessage :=
  effects.filterMap (fun e =>
    match e with
    | Effect.send _ m => some m
    | Effect.logInfo _ _ _ => none)

/-- The logger calls among the effects, in order. -/
def loggedLines (effects : List Effect) : List Effect :=
  effects.filter (fun e =>
    match e with
    | Effect.send _ _ => false
    | Effect.logInfo _ _ _ => true)

/-- The `Config` interface from `src/index.ts`: every field optional, with
the defaults applied by destructuring inside `configureServer`. -/
structure Config where
  always : Option Bool := none
  delay : Option Nat := none
  log : Option Bool := none
  root : Option String := none
  turbo : Option Bool := none

/-- What `configureServer` installs on the host server: the files added to
the watcher, and the handlers subscribed to the watcher's `add` and
`change` events (the same `checkReload` closure for both). -/
structure ServerSetup where
  watchedFiles : List String
  onAdd : String → List Effect
  onChange : String → List Effect

/-- The `configureServer` hook from `src/index.ts`: resolve the defaults
(`root = process.cwd()`, `log = true`, `always = true`, `delay = 0`,
`turbo = false`), normalize the patterns, build the `picomatch` predicate
over them, add the files to the watcher, and subscribe `checkReload` to
both the `add` and the `change` event. `cwd` stands for `process.cwd()`. -/
def configureServer (cwd : String) (paths : Sum String (List String))
    (c : Config) : ServerSetup :=
  let root := c.root.getD cwd
  let log := c.log.getD true
  let always := c.always.getD true
  let delay := c.delay.getD 0
  let turbo := c.turbo.getD false
  let files := normalizePaths root paths
  let shouldReload := picomatchMatch files
  { watchedFiles := files
    onAdd := checkReload shouldReload turbo always log delay root
    onChange := checkReload shouldReload turbo always log delay root }

/-- The raw template literal whose cleaned-up form is appended to the
turbo-rails runtime bundle by the `transform` hook (braces and single
quotes written as hex escapes). -/
def metaHotTemplate : String :=
  "\n        if (import.meta.hot) \x7b\n          import.meta.hot.on(\"turbo-refresh\", (data) => \x7b\n            console.log(\"Run <turbo-stream action=refresh> via vite-plugin-full-reload\");\n            Turbo.renderStreamMessage(\x27<turbo-stream action=\"refresh\"></turbo-stream>\x27);\n          \x7d)\n        \x7d\n      "

/-- Whitespace as matched by the `\s` class on the characters this file
cares about. -/
def isJsWhitespace (c : Char) : Bool :=
  c = ' ' || c = '\t' || c = '\n' || c = '\r'

/-- Length of the match of `(\n|\s\s)+` at the head of the list: greedily
take units that are either one newline or two whitespace characters
(newline preferred, as the alternation orders them); 0 when no unit
matches. -/
def wsRunLen : List Char → Nat
  | '\n' :: rest => 1 + wsRunLen rest
  | a :: b :: rest =>
    if isJsWhitespace a && isJsWhitespace b then 2 + wsRunLen rest else 0
  | _ => 0

/-- Replace every match of `(\n|\s\s)+` with the empty string, scanning
left to right; fuel-driven (fuel bounded by the list length) so that
closed instances evaluate in the kernel. -/
def stripWsRuns : Nat → List Char → List Char
  | 0, cs => cs
  | _ + 1, [] => []
  | fuel + 1, c :: cs =>
    let n := wsRunLen (c :: cs)
    if n = 0 then c :: stripWsRuns fuel cs
    else stripWsRuns fuel (List.drop n (c :: cs))

/-- The JavaScript `template.replace(/(\n|\s\s)+/gm, "")` applied to a
string. -/
def replaceWsRuns (s : String) : String :=
  String.mk (stripWsRuns s.data.length s.data)

/-- `metaHotFooter` from the `transform` hook: the template with every run
of newlines and double spaces removed. -/
def metaHotFooter : String := replaceWsRuns metaHotTemplate

/-- The marker the `transform` hook looks for in the module id. -/
def turboRailsMarker : String := "hotwired_turbo-rails.js"

/-- The third argument of the `transform` hook; only its `ssr` flag is
read. `none` models a call without options. -/
structure TransformOptions where
  ssr : Bool

/-- The `transform` hook from `src/index.ts`. `vitest` models the
truthiness of `process.env.VITEST`. In an SSR invocation without the
VITEST flag the hook returns immediately (no transformation). Otherwise,
when `turbo` is set and the module id contains the turbo-rails marker, it
returns the original code with `"\n"` and the footer appended; for every
other module it returns nothing (`none`), leaving the content untouched. -/
def transform (turbo vitest : Bool) (code id : String)
    (options : Option TransformOptions) : Option String :=
  if (match options with
      | some o => o.ssr
      | none => false) && !vitest then
    none
  else if turbo && listIsInfixOf turboRailsMarker.data id.data then
    some (code ++ "\n" ++ metaHotFooter)
  else none

/-- Process a list of watcher events through a fixed per-event handler,
collecting each event's observable actions. The plugin holds no mutable
state, so a run is just the pointwise image of the handler. -/
def runEvents (handler : String → List Effect) (events : List String) : List (List Effect) :=
  events.map handler

lemma isAbsolutePath_slash (t : String) : isAbsolutePath ("/" ++ t) = true := rfl

lemma isAbsolutePath_posixResolve (root p : String) :
    isAbsolutePath (posixResolve root p) = true :=
  isAbsolutePath_slash _

lemma isAbsolutePath_normalizePath (s : String) (h : isAbsolutePath s = true) :
    isAbsolutePath (normalizePath s) = true := by
  simp [normalizePath, h]
  exact isAbsolutePath_slash _

lemma isPrefixList_append (l m : List Char) : isPrefixList l (l ++ m) = true := by
  induction l with
  | nil => rfl
  | cons a as ih => simp [isPrefixList, ih]

/-- C1: for every triggered event (a path accepted by the bound predicate)
with turbo disabled, exactly one full-reload message is scheduled, and its
path field is the literal wildcard `*` when `always` is true and exactly
the triggering path when `always` is false. -/
theorem checkReload_fullReload_path (m : String → Bool) (always log : Bool)
    (delay : Nat) (root path : String) (h : m path = true) :
    sentMessages (checkReload m false always log delay root path)
      = [WsMessage.fullReload (if always then "*" else path)] := by
  cases log <;> simp [checkReload, h, sentMessages]

/-- Witness for C1 at a concrete triggered event with `always = true`. -/
theorem checkReload_fullReload_path_witness :
    picomatchMatch ["/proj/assets/*.css"] "/proj/assets/app.css" = true
  ∧ sentMessages (checkReload (picomatchMatch ["/proj/assets/*.css"]) false true true 0 "/proj" "/proj/assets/app.css")
      = [WsMessage.fullReload (if true then "*" else "/proj/assets/app.css")] :=
  ⟨by decide,
   checkReload_fullReload_path (picomatchMatch ["/proj/assets/*.css"]) true true 0 "/proj" "/proj/assets/app.css" (by decide)⟩

/-- C2: for every triggered event with `turbo` set, the scheduled client
message is the custom `turbo-refresh` event and no full-reload message is
ever sent, regardless of the `always` setting or the triggering path. -/
theorem checkReload_turbo_custom (m : String → Bool) (always log : Bool)
    (delay : Nat) (root path : String) (h : m path = true) :
    sentMessages (checkReload m true always log delay root path)
      = [WsMessage.custom "turbo-refresh"]
  ∧ ∀ q, WsMessage.fullReload q ∉ sentMessages (checkReload m true always log delay root path) := by
  constructor
  · cases log <;> simp [checkReload, h, sentMessages]
  · intro q
    cases log <;> simp [checkReload, h, sentMessages]

/-- Witness for C2 at a concrete triggered event in turbo mode. -/
theorem checkReload_turbo_custom_witness :
    picomatchMatch ["/proj/assets/*.css"] "/proj/assets/app.css" = true
  ∧ (sentMessages (checkReload (picomatchMatch ["/proj/assets/*.css"]) true false true 5 "/proj" "/proj/assets/app.css")
      = [WsMessage.custom "turbo-refresh"]
    ∧ ∀ q, WsMessage.fullReload q
        ∉ sentMessages (checkReload (picomatchMatch ["/proj/assets/*.css"]) true false true 5 "/proj" "/proj/assets/app.css")) :=
  ⟨by decide,
   checkReload_turbo_custom (picomatchMatch ["/proj/assets/*.css"]) false true 5 "/proj" "/proj/assets/app.css" (by decide)⟩

/-- C3: normalization treats a single pattern as a one-element list, maps
every pattern (in order, duplicates kept, none dropped) to its resolution
against `root`, and every resulting pattern is an absolute
separator-normalized string. -/
theorem normalizePaths_resolves_all (root s : String) (l : List String) :
    normalizePaths root (Sum.inl s) = [normalizePath (posixResolve root s)]
  ∧ normalizePaths root (Sum.inr l) = l.map (fun p => normalizePath (posixResolve root p))
  ∧ (normalizePaths root (Sum.inr l)).length = l.length
  ∧ (normalizePaths root (Sum.inr l)).all isAbsolutePath = true := by
  refine ⟨rfl, by simp [normalizePaths], by simp [normalizePaths], ?_⟩
  simp [normalizePaths, List.all_eq_true]
  intro p hp
  exact isAbsolutePath_normalizePath _ (isAbsolutePath_posixResolve root p)

/-- C4: an add/change event whose path is rejected by the bound predicate
produces no action at all — no message is scheduled and no log line is
emitted — for arbitrary paths and configurations, without error (the
handler is total). -/
theorem checkReload_rejected_silent (m : String → Bool) (turbo always log : Bool)
    (delay : Nat) (root path : String) (h : m path = false) :
    checkReload m turbo always log delay root path = [] := by
  simp [checkReload, h]

/-- Witness for C4: the non-matching path `/app/src/main.js` against the
normalized pattern set for `templates/**/*.html` is silently ignored. -/
theorem checkReload_rejected_silent_witness :
    picomatchMatch (normalizePaths "/app" (Sum.inr ["templates/**/*.html"])) "/app/src/main.js" = false
  ∧ checkReload (picomatchMatch (normalizePaths "/app" (Sum.inr ["templates/**/*.html"]))) false true true 0 "/app" "/app/src/main.js" = [] :=
  ⟨by decide,
   checkReload_rejected_silent (picomatchMatch (normalizePaths "/app" (Sum.inr ["templates/**/*.html"]))) false true true 0 "/app" "/app/src/main.js" (by decide)⟩

/-- C5: on every triggered event the client message is scheduled through a
timer carrying exactly the configured `delay` milliseconds (the `Effect.send`
delay field reifies the `setTimeout` delay), while the log emission, when
enabled, appears as a synchronous effect outside any timer. -/
theorem checkReload_delay_timer (m : String → Bool) (turbo always log : Bool)
    (delay : Nat) (root path : String) (h : m path = true) :
    ∃ msg, checkReload m turbo always log delay root path
      = Effect.send delay msg
        :: (if log then [Effect.logInfo (reloadLogMessage root path) true true] else []) := by
  cases turbo
  · exact ⟨WsMessage.fullReload (if always then "*" else path), by cases log <;> simp [checkReload, h]⟩
  · exact ⟨WsMessage.custom "turbo-refresh", by cases log <;> simp [checkReload, h]⟩

/-- Witness for C5 at a concrete triggered event with `delay = 200`. -/
theorem checkReload_delay_timer_witness :
    picomatchMatch ["/proj/assets/*.css"] "/proj/assets/app.css" = true
  ∧ ∃ msg, checkReload (picomatchMatch ["/proj/assets/*.css"]) false true true 200 "/proj" "/proj/assets/app.css"
      = Effect.send 200 msg
        :: (if true then [Effect.logInfo (reloadLogMessage "/proj" "/proj/assets/app.css") true true] else []) :=
  ⟨by decide,
   checkReload_delay_timer (picomatchMatch ["/proj/assets/*.css"]) false true true 200 "/proj" "/proj/assets/app.css" (by decide)⟩

/-- C6: on every triggered event, when `log` is true exactly one log line
is emitted, whose text is the fixed `full reload` label (green) followed by
the triggering path relative to `root` (dim), with `clear` and `timestamp`
both requested; when `log` is false no log line is emitted while exactly
one client message is still sent. The label is the same even in turbo
mode. -/
theorem checkReload_log_line (m : String → Bool) (turbo always log : Bool)
    (delay : Nat) (root path : String) (h : m path = true) :
    loggedLines (checkReload m turbo always log delay root path)
      = (if log then
          [Effect.logInfo (picoGreen "full reload" ++ " " ++ picoDim (pathRelative root path)) true true]
        else [])
  ∧ (sentMessages (checkReload m turbo always log delay root path)).length = 1 := by
  constructor
  · cases turbo <;> cases log <;> simp [checkReload, h, loggedLines, reloadLogMessage]
  · cases turbo <;> cases log <;> simp [checkReload, h, sentMessages]

/-- Witness for C6 at a concrete triggered event with `log = false`: no
log line, one message still sent. -/
theorem checkReload_log_line_witness :
    picomatchMatch ["/app/templates/**/*.html"] "/app/templates/pages/index.html" = true
  ∧ (loggedLines (checkReload (picomatchMatch ["/app/templates/**/*.html"]) false true false 0 "/app" "/app/templates/pages/index.html")
      = (if false then
          [Effect.logInfo (picoGreen "full reload" ++ " " ++ picoDim (pathRelative "/app" "/app/templates/pages/index.html")) true true]
        else [])
    ∧ (sentMessages (checkReload (picomatchMatch ["/app/templates/**/*.html"]) false true false 0 "/app" "/app/templates/pages/index.html")).length = 1) :=
  ⟨by decide,
   checkReload_log_line (picomatchMatch ["/app/templates/**/*.html"]) false true false 0 "/app" "/app/templates/pages/index.html" (by decide)⟩

/-- C7: an SSR invocation of the transform hook performs no transformation
(`none` leaves the module content unchanged) unless the VITEST environment
flag is set, in which case the SSR invocation behaves exactly like a
non-SSR one. -/
theorem transform_ssr_skip (turbo : Bool) (code id : String) :
    transform turbo false code id (some ⟨true⟩) = none
  ∧ transform turbo true code id (some ⟨true⟩) = transform turbo true code id (some ⟨false⟩) := by
  constructor
  · simp [transform]
  · simp [transform]

/-- C8: in a non-SSR invocation, when `turbo` is set and the module id
contains the turbo-rails marker, the hook returns the original code with
the fixed footer appended — the original body is preserved as a prefix —
and for every other module (or with `turbo` off) it returns nothing,
leaving the content unaffected. -/
theorem transform_append_only (turbo vitest : Bool) (code id : String) :
    (turbo = true → listIsInfixOf turboRailsMarker.data id.data = true →
        transform turbo vitest code id none = some (code ++ "\n" ++ metaHotFooter)
      ∧ isPrefixList code.data (code ++ "\n" ++ metaHotFooter).data = true)
  ∧ (turbo = false ∨ listIsInfixOf turboRailsMarker.data id.data = false →
      transform turbo vitest code id none = none) := by
  constructor
  · intro ht hid
    subst ht
    refine ⟨by simp [transform, hid], ?_⟩
    have hdata : (code ++ "\n" ++ metaHotFooter).data
        = code.data ++ ("\n".data ++ metaHotFooter.data) := by
      rw [String.data_append, String.data_append, List.append_assoc]
    rw [hdata]
    exact isPrefixList_append _ _
  · rintro (ht | hid)
    · subst ht
      simp [transform]
    · simp [transform, hid]

set_option maxRecDepth 4000 in
/-- Witness for C8: the turbo-rails bundle gets the footer appended after
its code; an unrelated module is left untouched. -/
theorem transform_append_only_witness :
    (transform true false "CODE" "node_modules/.vite/deps/hotwired_turbo-rails.js" none
      = some ("CODE" ++ "\n" ++ metaHotFooter)
    ∧ isPrefixList "CODE".data ("CODE" ++ "\n" ++ metaHotFooter).data = true)
  ∧ transform false false "other.js.code" "other.js" none = none :=
  ⟨(transform_append_only true false "CODE" "node_modules/.vite/deps/hotwired_turbo-rails.js").1 rfl (by decide),
   (transform_append_only false false "other.js.code" "other.js").2 (Or.inl rfl)⟩

/-- C9: event handling is stateless and deterministic — for a fixed
predicate and configuration, the actions produced for a path are the same
whatever events preceded it: the last event of any run equals the
handler's value at that path, independent of the prefix. -/
theorem checkReload_stateless (m : String → Bool) (turbo always log : Bool)
    (delay : Nat) (root : String) (pre1 pre2 : List String) (p : String) :
    (runEvents (checkReload m turbo always log delay root) (pre1 ++ [p])).getLast?
      = some (checkReload m turbo always log delay root p)
  ∧ (runEvents (checkReload m turbo always log delay root) (pre1 ++ [p])).getLast?
      = (runEvents (checkReload m turbo always log delay root) (pre2 ++ [p])).getLast? := by
  constructor
  · simp [runEvents]
  · simp [runEvents]

/-- C10: with an empty pattern list, normalization yields an empty pattern
set, the bound predicate rejects every path, and neither the add nor the
change handler ever produces a message or a log line. -/
theorem configureServer_empty_patterns (cwd : String) (c : Config) (path : String) :
    (configureServer cwd (Sum.inr []) c).watchedFiles = []
  ∧ picomatchMatch (normalizePaths (c.root.getD cwd) (Sum.inr [])) path = false
  ∧ (configureServer cwd (Sum.inr []) c).onAdd path = []
  ∧ (configureServer cwd (Sum.inr []) c).onChange path = [] := by
  refine ⟨rfl, rfl, ?_, ?_⟩ <;>
    simp [configureServer, checkReload, picomatchMatch, normalizePaths]

end VitePluginTurboReload
